import Mathlib

/-!
Verification of the `infomodels/database` Go package (files `database.go` and
`load.go`) against its natural-language specification.

The Go code is shallowly embedded: pure string manipulation is translated
directly (Go `strings.Split` on a one-character separator becomes
`List.splitOn` on `String.data`, `strings.TrimSpace` becomes the structurally recursive `goTrim`,
`strings.Contains` becomes an executable infix test); external effects
(HTTP fetches, the SQL engine, the filesystem, subprocesses) are abstracted
as explicit parameters or oracle fields carrying the outcome the external
world would produce; regular-expression matching (`regexp.FindStringSubmatch`
returning the first capture group) is abstracted as a function
`String → Option String`; Go maps with string keys are association lists
where the most recent insertion wins.
-/

namespace InfomodelsDatabase

/-- Executable test that `needle` occurs as a contiguous infix of the list.
Embeds Go `strings.Contains` at the character-list level. -/
def hasInfixB (needle : List Char) : List Char → Bool
  | [] => needle.isEmpty
  | c :: t => needle.isPrefixOf (c :: t) || hasInfixB needle t

/-- Go `strings.Contains s sub`. -/
def strContains (s sub : String) : Bool :=
  hasInfixB sub.data s.data

/-- Go `strings.Split s sep` for a one-character separator (the only uses in
this package are `";"` and `"."`). -/
def goSplit (s : String) (sep : Char) : List String :=
  (s.data.splitOn sep).map String.mk

/-- A single-quote character, used when embedding Go format strings that
quote their argument. -/
def squote : String :=
  String.singleton (Char.ofNat 39)

/-- Drop leading whitespace characters from a character list. -/
def dropWhileWs : List Char → List Char
  | [] => []
  | c :: t => if c.isWhitespace then dropWhileWs t else c :: t

/-- Go `strings.TrimSpace`: remove leading and trailing whitespace. -/
def goTrim (s : String) : String :=
  String.mk ((dropWhileWs (dropWhileWs s.data).reverse).reverse)

/-- Go `strings.Replace s old new 1` (replace the first occurrence only),
at the character-list level. -/
def replaceFirstAux (old new : List Char) : List Char → List Char
  | [] => []
  | c :: rest =>
    if old.isPrefixOf (c :: rest) then new ++ (c :: rest).drop old.length
    else c :: replaceFirstAux old new rest

/-- Go `strings.Replace s old new 1`. -/
def replaceFirst (s old new : String) : String :=
  String.mk (replaceFirstAux old.data new.data s.data)

/-- Constant `pedsnetMinorVersionSupported` from src/database.go. -/
def pedsnetMinorVersionSupported : String := "2.2"

/-- Constant `pedsnetVocabTablesPat` from src/database.go (kept as its literal pattern
text; pattern compilation is abstracted elsewhere). -/
def pedsnetVocabTablesPat : String :=
  "^(?:vocabulary|concept|concept_ancestor|concept_class|concept_relationship|concept_synonym|domain|drug_strength|relationship|source_to_concept_map)$"

/-- Constant `defaultDmsaUrl` from src/database.go. -/
def defaultDmsaUrl : String := "https://data-models-sqlalchemy.research.chop.edu/"

/-- The format-error message produced by `isValidModelVersion`
(src/database.go line 81). -/
def modelVersionFormatErr (version : String) : String :=
  "Model version must look like X.Y.Z, not " ++ squote ++ version ++ squote

/-- Function `isValidModelVersion` from src/database.go (lines 73-112).
The process-wide cache is the explicit `cached` argument; the two HTTP GETs
are the oracles `rootStatus` (GET of the service base URL) and
`versionStatus` (GET of the model/version ddl URL), each either a transport
error or an HTTP status code.  Returns the new cache value, the `isValid`
result, and the `err` result. -/
def isValidModelVersion (cached : Option Bool) (version : String)
    (rootStatus versionStatus : Except String Nat) :
    Option Bool × Bool × Option String :=
  match cached with
  | some b => (cached, b, none)
  | none =>
    if (goSplit version '.').length ≠ 3 then
      (none, false, some (modelVersionFormatErr version))
    else
      match rootStatus with
      | .error e =>
        (none, false, some ("Cannot access data-models-sqlalchemy web service: " ++ e))
      | .ok code =>
        if code ≠ 200 then
          (none, false, some "Data-models-sqlalchemy web service returned error response")
        else
          match versionStatus with
          | .error e =>
            (none, false, some ("Cannot access data-models-sqlalchemy web service: " ++ e))
          | .ok vcode =>
            if vcode ≠ 200 then (none, false, none)
            else (some true, true, none)

/-- One `tx.Exec` of a statement inside a transaction, as performed by
`executeSQL` in src/database.go (lines 162-173) when `tx` is non-nil.
The database engine is the abstract parameter `engine`; the result is the
transaction-local state, the trace of SQL strings passed to `Exec`, and the
error, if any (the message wraps the trimmed SQL, as the source does). -/
def executeSQLTx {σ : Type} (engine : σ → String → Except String σ) (st : σ)
    (sql : String) : σ × List String × Option String :=
  let sql := goTrim sql
  match engine st sql with
  | .ok st2 => (st2, [sql], none)
  | .error e => (st, [sql], some ("Error executing SQL: " ++ sql ++ ": " ++ e))

/-- The statement loop of `operateOnTables` (src/database.go lines 389-394):
statements run strictly in order; the first failure stops the loop and is
wrapped in a message quoting the failing statement. -/
def operateLoop {σ : Type} (engine : σ → String → Except String σ) :
    σ → List String → σ × List String × Option String
  | st, [] => (st, [], none)
  | st, stmt :: rest =>
    match executeSQLTx engine st stmt with
    | (st2, tr, none) =>
      let r := operateLoop engine st2 rest
      (r.1, tr ++ r.2.1, r.2.2)
    | (st2, tr, some e) =>
      (st2, tr, some ("Error executing SQL: `" ++ stmt ++ "`: " ++ e))

/-- The execution half of `operateOnTables` (src/database.go lines 379-394),
after the statement list has been produced: the optional
`SET search_path TO <schema>` directive for PostgreSQL, then the statement
loop. -/
def operateOnTablesExec {σ : Type} (engine : σ → String → Except String σ)
    (driverName schema : String) (st : σ) (stmts : List String) :
    σ × List String × Option String :=
  if schema ≠ "" then
    if driverName = "postgres" then
      match executeSQLTx engine st ("SET search_path TO " ++ schema) with
      | (st2, tr, none) =>
        let r := operateLoop engine st2 stmts
        (r.1, tr ++ r.2.1, r.2.2)
      | (st2, tr, some e) => (st2, tr, some e)
    else (st, [], some "Schemas are currently supported only for PostgreSQL")
  else operateLoop engine st stmts

/-- Function `transact` from src/database.go (lines 130-158) applied to
`operateOnTables`: open a transaction at state `s0`, run the statement
sequence, and on any error roll back (the committed state is `s0`
unchanged), otherwise commit the transaction-local state. -/
def transact {σ : Type} (engine : σ → String → Except String σ)
    (driverName schema : String) (s0 : σ) (stmts : List String) :
    σ × List String × Option String :=
  let r := operateOnTablesExec engine driverName schema s0 stmts
  match r.2.2 with
  | some e => (s0, r.2.1, some e)
  | none => (r.1, r.2.1, none)

/-- Sequential execution of trimmed statements against the abstract engine,
used to phrase hypotheses about which prefix of a statement list succeeds. -/
def runStmts {σ : Type} (engine : σ → String → Except String σ) (st : σ) :
    List String → Except String σ
  | [] => .ok st
  | s :: rest =>
    match engine st (goTrim s) with
    | .ok st2 => runStmts engine st2 rest
    | .error e => .error e

/-- The two shapes of the `patterns` argument of `dmsaSql`
(`normalPatternsType` and `mapPatternsType` in src/database.go lines
176-185), with each regular expression abstracted as a function returning
its first capture group. -/
inductive PatternsType where
  | normal (table : String → Option String)
  | mapped (tableCreate entityCreate entityDrop : String → Option String)

/-- Function `rawDmsaSql` from src/database.go (lines 193-221), applied to the body
text the HTTP fetch returned: split the body on `";"`; any statement
containing both `"version_history"` and `"CREATE TABLE"` has its first
occurrence of `"dms_version VARCHAR(16)"` rewritten to
`"dms_version VARCHAR(50)"`; every other statement is passed through
verbatim. -/
def rawDmsaSqlLoop : List String → List String
  | [] => []
  | stmt :: rest =>
    let stmt2 :=
      if strContains stmt "version_history" then
        if strContains stmt "CREATE TABLE" then
          replaceFirst stmt "dms_version VARCHAR(16)" "dms_version VARCHAR(50)"
        else stmt
      else stmt
    stmt2 :: rawDmsaSqlLoop rest

/-- Function `rawDmsaSql` on a fetched body (see `rawDmsaSqlLoop`). -/
def rawDmsaSql (body : String) : List String :=
  rawDmsaSqlLoop (goSplit body ';')

/-- Lookup in the Go map `indexOrConstraintToTableMap`, represented as an
association list in which the most recent insertion comes first. -/
def lookupTable (m : List (String × String)) (entity : String) : Option String :=
  (m.find? (fun p => p.1 == entity)).map (fun p => p.2)

/-- The statement loop of `dmsaSqlMap` (src/database.go lines 259-276):
for each statement not mentioning `version_history` whose
table-name-in-creation pattern matches, the entity-name pattern must also
match (otherwise a fatal error), and the entity-to-table pair is recorded. -/
def dmsaSqlMapLoop (tableCreate entityCreate : String → Option String) :
    List String → List (String × String) → Except String (List (String × String))
  | [], m => .ok m
  | stmt :: rest, m =>
    if strContains stmt "version_history" then
      dmsaSqlMapLoop tableCreate entityCreate rest m
    else
      match tableCreate stmt with
      | none => dmsaSqlMapLoop tableCreate entityCreate rest m
      | some table =>
        match entityCreate stmt with
        | none =>
          .error ("patterns.entityCreate is non-empty but does not match against `" ++ stmt ++ "`")
        | some entity =>
          dmsaSqlMapLoop tableCreate entityCreate rest ((entity, table) :: m)

/-- Function `dmsaSqlMap` from src/database.go (lines 244-278), applied to the body
text fetched for the creation SQL of the same operand. -/
def dmsaSqlMap (tableCreate entityCreate : String → Option String)
    (createBody : String) : Except String (List (String × String)) :=
  dmsaSqlMapLoop tableCreate entityCreate (rawDmsaSql createBody) []

/-- The per-statement decision of the `dmsaSql` loop (src/database.go lines
315-346), for a statement that has already been trimmed: a statement
containing `version_history` is always kept; otherwise the statement is kept
only if the pattern matches, and then according to the include pattern if
one is configured, else the exclude pattern if one is configured, else it is
dropped.  When the entity-to-table map is in use and the lookup fails, the
source records an error but continues, leaving `table` as the empty string;
that behavior is reproduced here.  Returns (shouldInclude, error). -/
def dmsaSqlStepCore (includeTables excludeTables : Option (String → Bool))
    (pattern : String → Option String)
    (entityToTableMap : Option (List (String × String))) (stmt : String) :
    Bool × Option String :=
  if strContains stmt "version_history" then (true, none)
  else
    match pattern stmt with
    | none => (false, none)
    | some sub =>
      let te : String × Option String :=
        match entityToTableMap with
        | none => (sub, none)
        | some m =>
          match lookupTable m sub with
          | some t => (t, none)
          | none =>
            ("", some ("Failed to look up table name for entity `" ++ sub ++ "` in SQL `" ++ stmt ++ "`"))
      let shouldInclude : Bool :=
        match includeTables with
        | some p => p te.1
        | none =>
          match excludeTables with
          | some q => !q te.1
          | none => false
      (shouldInclude, te.2)

/-- The statement loop of `dmsaSql` (src/database.go lines 315-347): each
statement is trimmed, the per-statement decision is taken, kept statements
are appended in order, and a lookup error overwrites the running error
without stopping the loop (as in the source, where `err` is a named return
that is only assigned, never returned early, on a lookup miss). -/
def dmsaSqlLoop (includeTables excludeTables : Option (String → Bool))
    (pattern : String → Option String)
    (entityToTableMap : Option (List (String × String))) :
    List String → Option String → List String × Option String
  | [], err => ([], err)
  | stmt :: rest, err =>
    let t := goTrim stmt
    let step := dmsaSqlStepCore includeTables excludeTables pattern entityToTableMap t
    let err2 := match step.2 with | some e => some e | none => err
    let r := dmsaSqlLoop includeTables excludeTables pattern entityToTableMap rest err2
    (if step.1 then t :: r.1 else r.1, r.2)

/-- Function `dmsaSql` from src/database.go (lines 292-349), applied to the fetched
body for the target operation and (for the mapped case) the fetched body for
the corresponding creation operation.  In the mapped case the
entity-to-table map is built first from the creation SQL and the drop
pattern drives extraction; in the normal case the table pattern drives
extraction directly. -/
def dmsaSql (includeTables excludeTables : Option (String → Bool))
    (patterns : PatternsType) (targetBody createBody : String) :
    List String × Option String :=
  let stmts := rawDmsaSql targetBody
  match patterns with
  | .normal tablePattern =>
    dmsaSqlLoop includeTables excludeTables tablePattern none stmts none
  | .mapped tableCreate entityCreate entityDrop =>
    match dmsaSqlMap tableCreate entityCreate createBody with
    | .error e => ([], some e)
    | .ok m => dmsaSqlLoop includeTables excludeTables entityDrop (some m) stmts none

/-- Go runtime panics that the embedded code can raise. -/
inductive GoPanic where
  | indexOutOfRange
deriving DecidableEq

/-- Function `versionMatchesMinorVersion` from src/database.go (lines 411-414):
`strings.Split(version, ".")` always yields at least one part, and the
source indexes `parts[1]` without checking that a second part exists; with
fewer than two parts Go panics with an index-out-of-range error, modelled
here as the `Except` error case. -/
def versionMatchesMinorVersion (version referenceMinorVersion : String) :
    Except GoPanic Bool :=
  match goSplit version '.' with
  | p0 :: p1 :: _ => .ok (p0 ++ "." ++ p1 == referenceMinorVersion)
  | _ => .error .indexOutOfRange

/-- The model-alias phase of `Open` (src/database.go lines 424-440):
`pedsnet-core` becomes `pedsnet` and, when no exclude pattern was supplied,
the vocabulary exclude pattern is installed after consulting
`versionMatchesMinorVersion` (whose panic propagates); symmetrically for
`pedsnet-vocab` and the include pattern.  Returns the effective model,
include pattern, exclude pattern, and whether the minor-version warning was
printed. -/
def openAliasPhase (model modelVersion includeTablesPat excludeTablesPat : String) :
    Except GoPanic (String × String × String × Bool) :=
  if model = "pedsnet-core" then
    if excludeTablesPat = "" then
      match versionMatchesMinorVersion modelVersion pedsnetMinorVersionSupported with
      | .error p => .error p
      | .ok b => .ok ("pedsnet", includeTablesPat, pedsnetVocabTablesPat, !b)
    else .ok ("pedsnet", includeTablesPat, excludeTablesPat, false)
  else if model = "pedsnet-vocab" then
    if includeTablesPat = "" then
      match versionMatchesMinorVersion modelVersion pedsnetMinorVersionSupported with
      | .error p => .error p
      | .ok b => .ok ("pedsnet", pedsnetVocabTablesPat, excludeTablesPat, !b)
    else .ok ("pedsnet", includeTablesPat, excludeTablesPat, false)
  else .ok (model, includeTablesPat, excludeTablesPat, false)

/-- Possible outcomes of `Open`: a Go panic, an error return, or a
constructed `Database` value (its effective model, version, and pattern
strings). -/
inductive OpenOutcome where
  | panicked (p : GoPanic)
  | failed (msg : String)
  | opened (model modelVersion includePat excludePat : String)
deriving DecidableEq

/-- Function `Open` from src/database.go (lines 417-471).  External effects are
oracles: `regexOk pat` is whether `regexp.Compile pat` succeeds, `cached`,
`rootStatus` and `versionStatus` feed `isValidModelVersion` (via
`checkModelAndVersion`), `urlScheme` is the scheme `url.Parse` extracts from
the database URL (or its parse error), and `dbPing` is the outcome of
opening and pinging the database.  The alias phase runs first, so its panic
preempts everything else. -/
def OpenModel (model modelVersion databaseUrl schema dmsaUrlIn
    includeTablesPat excludeTablesPat : String)
    (regexOk : String → Bool) (cached : Option Bool)
    (rootStatus versionStatus : Except String Nat)
    (urlScheme : Except String String) (dbPing : Except String Unit) :
    OpenOutcome :=
  let _dmsaUrl := if dmsaUrlIn = "" then defaultDmsaUrl else dmsaUrlIn
  let _schema := schema
  match openAliasPhase model modelVersion includeTablesPat excludeTablesPat with
  | .error p => .panicked p
  | .ok (model2, incPat, excPat, _warned) =>
    if incPat ≠ "" ∧ regexOk incPat = false then
      .failed ("Invalid includeTablesPat regexp string " ++ squote ++ incPat ++ squote)
    else if excPat ≠ "" ∧ regexOk excPat = false then
      .failed ("Invalid excludeTablesPat regexp string " ++ squote ++ excPat ++ squote)
    else
      match isValidModelVersion cached modelVersion rootStatus versionStatus with
      | (_, _, some e) => .failed e
      | (_, isValid, none) =>
        if isValid = false then
          .failed ("Invalid version " ++ squote ++ modelVersion ++ squote ++ " of model " ++ squote ++ model2 ++ squote)
        else
          match urlScheme with
          | .error e => .failed ("Invalid URL " ++ squote ++ databaseUrl ++ squote ++ ": " ++ e)
          | .ok scheme =>
            if scheme = "postgres" ∨ scheme = "postgresql" then
              match dbPing with
              | .error e => .failed ("Error opening " ++ databaseUrl ++ ": " ++ e)
              | .ok _ => .opened model2 modelVersion incPat excPat
            else .failed ("Unsupported database scheme " ++ squote ++ scheme ++ squote)

/-- Observable events of the bulk-load pipeline in src/load.go: log lines and
external actions, in the order the code performs them. -/
inductive LoadEvent where
  | logInfo (msg : String)
  | logWarn (msg : String)
  | logError (msg : String)
  | readHeader (file : String)
  | lookPathPsql
  | runCopy (cmdStr : String)
  | countTableRows (table : String)
  | countFileLines (file : String)
  | execSql (sql : String)
deriving DecidableEq

/-- Function `lineCounter` from src/load.go (lines 41-67): the file is read in
chunks; newline bytes are counted, the last byte of each nonempty chunk is
remembered (initially a newline), and at end of file a final unterminated
line is counted (with a warning logged). -/
def lineCounterLoop : List (List Nat) → Nat → Nat → List LoadEvent × Nat
  | [], count, lastByte =>
    if lastByte ≠ 10 then
      ([.logWarn ("Last byte in buffer is " ++ squote ++ toString lastByte ++ squote)], count + 1)
    else ([], count)
  | chunk :: rest, count, lastByte =>
    lineCounterLoop rest (count + chunk.count 10) (chunk.getLastD lastByte)

/-- Function `lineCounter` applied to the whole chunked stream of a file. -/
def lineCounter (chunks : List (List Nat)) : List LoadEvent × Nat :=
  lineCounterLoop chunks 0 10

/-- Function `versionToShorthand` from src/load.go (lines 188-194): `"X.Y"` and
`"X.Y.Z"` yield `"XY"`; any other component count is an error. -/
def versionToShorthand (version : String) : Except String String :=
  let parts := goSplit version '.'
  if parts.length ≠ 2 ∧ parts.length ≠ 3 then
    .error ("Version string must be like X.Y or X.Y.Z, not " ++ squote ++ version ++ squote)
  else .ok (parts.getD 0 "" ++ parts.getD 1 "")

/-- Function `databaseName` from src/load.go (lines 198-203). -/
def databaseName (modelVersion : String) : Except String String :=
  match versionToShorthand modelVersion with
  | .error e => .error e
  | .ok shortVersion => .ok ("pedsnet_dcc_v" ++ shortVersion)

/-- Oracles for the external world one `copyCommand` invocation touches:
whether `psql` is on the PATH, the CSV header row (or its read error), the
`pq.ParseURL` result, the `primarySchemaInSearchPath` result, the outcome of
the `psql` subprocess (error carries the captured stderr), the destination
row count from the database, the source file content as read chunks, and
the outcome of the `VACUUM` statement issued by `analyze`. -/
structure LoadEnv where
  psqlOnPath : Bool
  header : Except String (List String)
  parseUrl : Except String String
  primarySchema : Except String String
  copyRun : Except String Unit
  tableRows : Except String Int
  fileChunks : Except String (List (List Nat))
  analyzeRun : Except String Unit

/-- The per-task arguments of `CopyCommandArgs` in src/load.go. -/
structure CopyArgs where
  databaseUrl : String
  searchPath : String
  table : String
  csvFile : String

/-- The SQL text `analyze` builds (src/load.go line 103). -/
def analyzeSqlFor (schema table : String) : String :=
  "VACUUM FREEZE ANALYZE " ++ schema ++ "." ++ table

/-- Function `analyze` from src/load.go (lines 95-110): execute the `VACUUM FREEZE
ANALYZE` statement for the table, wrapping a failure in a message quoting
the SQL. -/
def analyze (env : LoadEnv) (schema table : String) :
    List LoadEvent × Except String Unit :=
  ([.execSql (analyzeSqlFor schema table)],
    match env.analyzeRun with
    | .ok _ => .ok ()
    | .error e => .error ("Error executing `" ++ analyzeSqlFor schema table ++ "`: " ++ e))

/-- The shell command string `copyCommand` builds (src/load.go line 149). -/
def copyCmdStr (connStr primarySchema table columns csvFile : String) : String :=
  "psql \"" ++ connStr ++ "\" -c \"\\COPY " ++ primarySchema ++ "." ++ table ++
    "(" ++ columns ++ ") FROM " ++ squote ++ csvFile ++ squote ++
    " (FORMAT csv, HEADER true, ENCODING " ++ squote ++ "utf-8" ++ squote ++
    ", FORCE_NULL(" ++ columns ++ "))\""

/-- Function `copyCommand` from src/load.go (lines 123-184), one bulk-load task:
read the CSV header, check that `psql` is resolvable, parse the database
URL, build and run the `psql \COPY` subprocess, count destination rows and
source-file lines (minus the header), fail with both numbers on a mismatch,
and on a verified match run the maintenance `analyze` whose result is
discarded.  Returns the ordered event trace and the task result. -/
def copyCommand (env : LoadEnv) (a : CopyArgs) :
    List LoadEvent × Except String Unit :=
  let ev1 : List LoadEvent :=
    [.logInfo ("Loading " ++ a.table ++ " (search_path: " ++ a.searchPath ++ ")"),
     .readHeader a.csvFile]
  match env.header with
  | .error e => (ev1, .error e)
  | .ok cols =>
    let ev2 := ev1 ++ [.lookPathPsql]
    if env.psqlOnPath = false then
      (ev2, .error "`psql` binary must be in PATH")
    else
      let columns := String.intercalate ", " cols
      match env.parseUrl with
      | .error _ => (ev2, .error ("Invalid database URL: " ++ a.databaseUrl))
      | .ok connStr =>
        match env.primarySchema with
        | .error e => (ev2, .error e)
        | .ok primarySchema =>
          let cmdStr := copyCmdStr connStr primarySchema a.table columns a.csvFile
          let ev3 := ev2 ++ [.runCopy cmdStr]
          match env.copyRun with
          | .error stderrText =>
            (ev3, .error ("Error running command with `sh -c`: " ++ cmdStr ++ " (STDERR: " ++ stderrText ++ ")"))
          | .ok _ =>
            let ev4 := ev3 ++ [.countTableRows a.table]
            match env.tableRows with
            | .error e =>
              (ev4, .error ("Load for " ++ primarySchema ++ "." ++ a.table ++ " nominally worked, but counting the number of rows failed: " ++ e))
            | .ok actualRows =>
              let ev5 := ev4 ++ [.countFileLines a.csvFile]
              match env.fileChunks with
              | .error e =>
                (ev5, .error ("Load for " ++ primarySchema ++ "." ++ a.table ++ " nominally worked, but counting the number of lines in the csv file failed: " ++ e))
              | .ok chunks =>
                let lc := lineCounter chunks
                let expectedRows : Int := (lc.2 : Int) - 1
                let ev6 := ev5 ++ lc.1
                if actualRows ≠ expectedRows then
                  let msg := "Number of rows in " ++ primarySchema ++ "." ++ a.table ++
                    " (" ++ toString actualRows ++ ") does not equal the number of lines (" ++
                    toString expectedRows ++ ") in the input file"
                  (ev6 ++ [.logError ("In copyCommand: " ++ msg)], .error msg)
                else
                  let ev7 := ev6 ++
                    [.logInfo ("Loaded " ++ toString actualRows ++ " rows into " ++ primarySchema ++ "." ++ a.table),
                     .logInfo ("Vacuuming " ++ primarySchema ++ "." ++ a.table)]
                  let ar := analyze env primarySchema a.table
                  (ev7 ++ ar.1, .ok ())

/-- The task-processing core of `load` (src/load.go lines 206-268).  The
fixed-size worker pool is modelled by processing the submitted tasks in
order; what the claims use is only which tasks are attempted, each task's
own event order, and the multiset of collected errors, none of which depend
on the interleaving. -/
def loadTasks : List (LoadEnv × CopyArgs) → List LoadEvent × List String
  | [] => ([], [])
  | (env, a) :: rest =>
    let r := copyCommand env a
    let rr := loadTasks rest
    (r.1 ++ rr.1,
      (match r.2 with | .error e => [e] | .ok _ => []) ++ rr.2)

/-- The error-draining loop of `load` (src/load.go lines 256-259): each
collected error message followed by a newline, concatenated in order. -/
def combineErrors : List String → String
  | [] => ""
  | e :: rest => e ++ "\n" ++ combineErrors rest

/-- Function `load` from src/load.go (lines 206-268): run every task, drain the
collected errors, and return a single combined error concatenating every
failure message (each followed by a newline, plus a trailing newline when
any failure occurred), or success when no task failed. -/
def load (tasks : List (LoadEnv × CopyArgs)) : List LoadEvent × Except String Unit :=
  let r := loadTasks tasks
  let masterError := combineErrors r.2
  let masterError := if masterError ≠ "" then masterError ++ "\n" else masterError
  (r.1, if masterError ≠ "" then .error masterError else .ok ())

/-- Whether an event is a log line whose message contains `s`. -/
def logMentions (ev : LoadEvent) (s : String) : Bool :=
  match ev with
  | .logInfo m => strContains m s
  | .logWarn m => strContains m s
  | .logError m => strContains m s
  | _ => false

/-- Whether no log line in the trace mentions `s`. -/
def noLogMention (evs : List LoadEvent) (s : String) : Bool :=
  evs.all (fun ev => !logMentions ev s)

/-- A concrete table-name extraction function used to exercise the filter
logic of `dmsaSql` on a one-statement body. -/
def c1Pattern : String → Option String :=
  fun s => if s == "CREATE TABLE foo (x int)" then some "foo" else none

/-- A concrete database engine over a trace state, failing exactly on the
statement `"BOOM"`. -/
def c2Engine : List String → String → Except String (List String) :=
  fun st sql => if sql == "BOOM" then .error "db says no" else .ok (st ++ [sql])

/-- A concrete load task environment whose destination row count (5) does not
match the source file (three data lines plus header is not what it reports:
the file has four physical lines, so three data lines). -/
def c3Env : LoadEnv :=
  { psqlOnPath := true, header := .ok ["a", "b"], parseUrl := .ok "conn",
    primarySchema := .ok "sch", copyRun := .ok (), tableRows := .ok 5,
    fileChunks := .ok [[104, 10, 120, 10, 121, 10, 122, 10]], analyzeRun := .ok () }

/-- Concrete task arguments for the row-count claim. -/
def c3Args : CopyArgs :=
  { databaseUrl := "u", searchPath := "sp", table := "t", csvFile := "f" }

/-- A concrete environment in which `psql` is not resolvable but everything
else (in particular the CSV header read) would succeed. -/
def c6Env : LoadEnv :=
  { psqlOnPath := false, header := .ok ["a"], parseUrl := .ok "conn",
    primarySchema := .ok "sch", copyRun := .ok (), tableRows := .ok 0,
    fileChunks := .ok [], analyzeRun := .ok () }

/-- First concrete task for the missing-psql run. -/
def c6Args1 : CopyArgs :=
  { databaseUrl := "u", searchPath := "sp", table := "t1", csvFile := "f1" }

/-- Second concrete task for the missing-psql run. -/
def c6Args2 : CopyArgs :=
  { databaseUrl := "u", searchPath := "sp", table := "t2", csvFile := "f2" }

/-- A concrete environment in which the load and its verification succeed
(two destination rows, file of header plus two data lines) but the
maintenance `VACUUM` fails. -/
def c7Env : LoadEnv :=
  { psqlOnPath := true, header := .ok ["a", "b"], parseUrl := .ok "conn",
    primarySchema := .ok "sch", copyRun := .ok (), tableRows := .ok 2,
    fileChunks := .ok [[104, 10, 120, 10, 121, 10]], analyzeRun := .error "analyze boom" }

/-- Concrete task arguments for the maintenance claim. -/
def c7Args : CopyArgs :=
  { databaseUrl := "u", searchPath := "sp", table := "t", csvFile := "f" }

/-! ### General lemmas about the string helpers -/

theorem hasInfixB_iff (needle : List Char) (l : List Char) :
    hasInfixB needle l = true ↔ needle <:+: l := by
  induction l with
  | nil =>
    simp only [hasInfixB, List.isEmpty_iff, List.infix_nil]
  | cons c t ih =>
    rw [List.infix_cons_iff]
    simp [hasInfixB, ih, List.isPrefixOf_iff_prefix]

theorem strContains_of_parts (x a b c : String)
    (hx : x.data = a.data ++ (b.data ++ c.data)) : strContains x b = true := by
  rw [strContains, hasInfixB_iff]
  refine ⟨a.data, c.data, ?_⟩
  rw [hx, List.append_assoc]

theorem str_ne_of_head_ne {x y : String} (h : x.data.head? ≠ y.data.head?) :
    x ≠ y :=
  fun he => h (by rw [he])

theorem strMk_data (v : String) : String.mk v.data = v := rfl

theorem goSplit_eq_single (v : String) (c : Char) (sub : String)
    (hsub : sub.data = [c]) (h : strContains v sub = false) :
    goSplit v c = [v] := by
  have hnm : c ∉ v.data := by
    intro hm
    obtain ⟨s, t, hst⟩ := List.append_of_mem hm
    have hinf : hasInfixB sub.data v.data = true := by
      rw [hasInfixB_iff, hsub]
      exact ⟨s, t, by simp [hst]⟩
    rw [strContains] at h
    rw [hinf] at h
    exact absurd h (by simp)
  rw [goSplit, List.splitOn]
  rw [List.splitOnP_eq_single]
  · exact congrArg (fun l => [l]) (strMk_data v)
  · intro x hx hbe
    exact hnm ((eq_of_beq hbe) ▸ hx)

/-! ### C8: version-to-shorthand conversion -/

/-- C8: `versionToShorthand` maps `"2.2"` and `"2.2.3"` to `"22"` (the first
two dot-separated components concatenated), and rejects any input whose
component count is neither 2 nor 3, such as `"2"` and `"2.2.3.4"`, with an
error. -/
theorem C8_versionToShorthand :
    versionToShorthand "2.2" = .ok "22" ∧
    versionToShorthand "2.2.3" = .ok "22" ∧
    (∃ e, versionToShorthand "2" = .error e) ∧
    (∃ e, versionToShorthand "2.2.3.4" = .error e) ∧
    ∀ v : String, (goSplit v '.').length ≠ 2 → (goSplit v '.').length ≠ 3 →
      ∃ e, versionToShorthand v = .error e := by
  refine ⟨rfl, rfl, ⟨_, rfl⟩, ⟨_, rfl⟩, ?_⟩
  intro v h2 h3
  exact ⟨"Version string must be like X.Y or X.Y.Z, not " ++ squote ++ v ++ squote, by
    simp only [versionToShorthand]
    rw [if_pos (And.intro h2 h3)]⟩

/-- Witness for C8: the general rejection clause applied to the concrete
four-component version `"1.2.3.4"`. -/
theorem C8_versionToShorthand_witness :
    ∃ e, versionToShorthand "1.2.3.4" = .error e :=
  C8_versionToShorthand.2.2.2.2 "1.2.3.4" (by decide) (by decide)

/-! ### C4: model-version format validation -/

/-- Counterexample to C4: the two-component version `"2.2"` is rejected by
`isValidModelVersion` on format grounds (no cached validity, service
reachable), contradicting the claim that `X.Y` passes format validation. -/
theorem C4_counterexample :
    isValidModelVersion none "2.2" (.ok 200) (.ok 200) =
      (none, false, some (modelVersionFormatErr "2.2")) := by decide

/-- Unfolding of `isValidModelVersion` at an empty cache (the outer match on
the cache argument reduced away); holds by definitional unfolding. -/
theorem isValidModelVersion_none (version : String)
    (rootStatus versionStatus : Except String Nat) :
    isValidModelVersion none version rootStatus versionStatus =
      if (goSplit version '.').length ≠ 3 then
        (none, false, some (modelVersionFormatErr version))
      else
        match rootStatus with
        | .error e =>
          (none, false, some ("Cannot access data-models-sqlalchemy web service: " ++ e))
        | .ok code =>
          if code ≠ 200 then
            (none, false, some "Data-models-sqlalchemy web service returned error response")
          else
            match versionStatus with
            | .error e =>
              (none, false, some ("Cannot access data-models-sqlalchemy web service: " ++ e))
            | .ok vcode =>
              if vcode ≠ 200 then (none, false, none)
              else (some true, true, none) := rfl

/-- C4 as amended: with no cached validity, `isValidModelVersion` raises its
format error exactly for versions whose dot-separated component count is not
3; a three-component version never produces the format error. -/
theorem C4_version_format (v : String) (rootStatus versionStatus : Except String Nat) :
    ((goSplit v '.').length ≠ 3 →
      isValidModelVersion none v rootStatus versionStatus =
        (none, false, some (modelVersionFormatErr v))) ∧
    ((goSplit v '.').length = 3 →
      (isValidModelVersion none v rootStatus versionStatus).2.2 ≠
        some (modelVersionFormatErr v)) := by
  constructor
  · intro h
    rw [isValidModelVersion_none]
    simp only [if_pos h]
  · intro h3
    have hne : ¬((goSplit v '.').length ≠ 3) := fun hc => hc h3
    rw [isValidModelVersion_none]
    simp only [if_neg hne]
    cases rootStatus with
    | error e =>
      simp only [Ne, Option.some.injEq]
      apply str_ne_of_head_ne
      show some (Char.ofNat 67) ≠ some (Char.ofNat 77)
      decide
    | ok code =>
      by_cases hc : code ≠ 200
      · simp only [if_pos hc, Ne, Option.some.injEq]
        apply str_ne_of_head_ne
        show some (Char.ofNat 68) ≠ some (Char.ofNat 77)
        decide
      · simp only [if_neg hc]
        cases versionStatus with
        | error e =>
          simp only [Ne, Option.some.injEq]
          apply str_ne_of_head_ne
          show some (Char.ofNat 67) ≠ some (Char.ofNat 77)
          decide
        | ok vcode =>
          by_cases hv : vcode ≠ 200
          · simp [if_pos hv]
          · simp [if_neg hv]

/-- Witness for C4 as amended: the single-component version `"2"` is
rejected with the format error. -/
theorem C4_version_format_witness :
    isValidModelVersion none "2" (.ok 200) (.ok 200) =
      (none, false, some (modelVersionFormatErr "2")) :=
  (C4_version_format "2" (.ok 200) (.ok 200)).1 (by decide)

/-! ### C10: Open panics on a dot-free version for the pedsnet aliases -/

/-- A version string with no `"."` splits into a single part, so the
minor-version comparison panics indexing the second part. -/
theorem versionMatchesMinorVersion_panics (version refMinor : String)
    (h : strContains version "." = false) :
    versionMatchesMinorVersion version refMinor = .error .indexOutOfRange := by
  rw [versionMatchesMinorVersion, goSplit_eq_single version '.' "." rfl h]

/-- C10: for model alias `"pedsnet-core"` with no exclude pattern supplied
(and for `"pedsnet-vocab"` with no include pattern supplied), a model
version containing no `"."` makes `Open` panic with an index-out-of-range
error instead of returning an error, whatever the remaining inputs and
oracles are. -/
theorem C10_open_panics (modelVersion databaseUrl schema dmsaUrl incPat excPat : String)
    (regexOk : String → Bool) (cached : Option Bool)
    (rootStatus versionStatus : Except String Nat)
    (urlScheme : Except String String) (dbPing : Except String Unit)
    (hnd : strContains modelVersion "." = false) :
    OpenModel "pedsnet-core" modelVersion databaseUrl schema dmsaUrl incPat ""
        regexOk cached rootStatus versionStatus urlScheme dbPing =
      .panicked .indexOutOfRange ∧
    OpenModel "pedsnet-vocab" modelVersion databaseUrl schema dmsaUrl "" excPat
        regexOk cached rootStatus versionStatus urlScheme dbPing =
      .panicked .indexOutOfRange := by
  have hpanic := versionMatchesMinorVersion_panics modelVersion
    pedsnetMinorVersionSupported hnd
  constructor
  · simp [OpenModel, openAliasPhase, hpanic]
  · simp [OpenModel, openAliasPhase, hpanic]

/-- Witness for C10: the concrete dot-free version `"2"` panics for both
aliases with all oracles benign. -/
theorem C10_open_panics_witness :
    OpenModel "pedsnet-core" "2" "postgres://h/db" "" "" "" ""
        (fun _ => true) none (.ok 200) (.ok 200) (.ok "postgres") (.ok ()) =
      .panicked .indexOutOfRange ∧
    OpenModel "pedsnet-vocab" "2" "postgres://h/db" "" "" "" ""
        (fun _ => true) none (.ok 200) (.ok 200) (.ok "postgres") (.ok ()) =
      .panicked .indexOutOfRange :=
  C10_open_panics "2" "postgres://h/db" "" "" "" ""
    (fun _ => true) none (.ok 200) (.ok 200) (.ok "postgres") (.ok ()) (by decide)

/-! ### The dmsaSql filter loop: membership characterization -/

/-- A trimmed statement is in the output of the `dmsaSql` loop exactly when
some input statement trims to it and the per-statement decision keeps it.
The running error value never influences which statements are kept. -/
theorem dmsaSqlLoop_mem_iff (includeTables excludeTables : Option (String → Bool))
    (pattern : String → Option String)
    (emap : Option (List (String × String)))
    (stmts : List String) (err0 : Option String) (t : String) :
    t ∈ (dmsaSqlLoop includeTables excludeTables pattern emap stmts err0).1 ↔
      ∃ s, s ∈ stmts ∧ goTrim s = t ∧
        (dmsaSqlStepCore includeTables excludeTables pattern emap t).1 = true := by
  induction stmts generalizing err0 with
  | nil => simp [dmsaSqlLoop]
  | cons stmt rest ih =>
    simp only [dmsaSqlLoop]
    by_cases hk : (dmsaSqlStepCore includeTables excludeTables pattern emap (goTrim stmt)).1 = true
    · rw [if_pos hk]
      simp only [List.mem_cons]
      constructor
      · intro hmem
        cases hmem with
        | inl he =>
          exact ⟨stmt, Or.inl rfl, he.symm, by rw [he]; exact hk⟩
        | inr hr =>
          obtain ⟨s, hs, ht, hkk⟩ := (ih _).mp hr
          exact ⟨s, Or.inr hs, ht, hkk⟩
      · intro hex
        obtain ⟨s, hs, ht, hkk⟩ := hex
        cases hs with
        | inl he => exact Or.inl (by rw [← ht, he])
        | inr hr => exact Or.inr ((ih _).mpr ⟨s, hr, ht, hkk⟩)
    · rw [if_neg hk]
      rw [ih]
      constructor
      · intro hex
        obtain ⟨s, hs, ht, hkk⟩ := hex
        exact ⟨s, List.mem_cons_of_mem _ hs, ht, hkk⟩
      · intro hex
        obtain ⟨s, hs, ht, hkk⟩ := hex
        cases List.mem_cons.mp hs with
        | inl he =>
          exfalso
          apply hk
          rw [he] at ht
          rw [ht]
          exact hkk
        | inr hr => exact ⟨s, hr, ht, hkk⟩

/-! ### C1: include/exclude filtering of resolved statements -/

/-- Counterexample to C1: a statement that does not contain the lifecycle
marker and whose table name resolves (to `"foo"`), processed with *neither*
an include nor an exclude pattern configured, is dropped from the output,
whereas the claim says it is kept unconditionally. -/
theorem C1_counterexample :
    strContains "CREATE TABLE foo (x int)" "version_history" = false ∧
    c1Pattern "CREATE TABLE foo (x int)" = some "foo" ∧
    (dmsaSql none none (.normal c1Pattern) "CREATE TABLE foo (x int)" "").1 = [] := by
  refine ⟨by decide, by decide, by decide⟩

/-- C1 as amended: for a statement without the lifecycle marker whose
pattern matches and whose table name resolves (directly, or through the
entity-to-table map), the statement is kept iff the include pattern matches
the table name when an include pattern is configured; otherwise iff the
exclude pattern does not match it when an exclude pattern is configured;
otherwise (neither configured) it is dropped. -/
theorem C1_filter_decision (includeTables excludeTables : Option (String → Bool))
    (pattern : String → Option String) (emap : Option (List (String × String)))
    (targetBody : String) (stmt sub table : String)
    (hin : stmt ∈ rawDmsaSql targetBody)
    (hlc : strContains (goTrim stmt) "version_history" = false)
    (hpat : pattern (goTrim stmt) = some sub)
    (hres : (match emap with
             | none => some sub
             | some m => lookupTable m sub) = some table) :
    (goTrim stmt ∈
        (dmsaSqlLoop includeTables excludeTables pattern emap
          (rawDmsaSql targetBody) none).1 ↔
      (match includeTables with
       | some p => p table = true
       | none =>
         match excludeTables with
         | some q => q table = false
         | none => False)) := by
  have hstep : (dmsaSqlStepCore includeTables excludeTables pattern emap (goTrim stmt)).1 =
      (match includeTables with
       | some p => p table
       | none =>
         match excludeTables with
         | some q => !q table
         | none => false) := by
    rw [dmsaSqlStepCore]
    rw [hlc]
    simp only [Bool.false_eq_true, if_neg (by simp : ¬(False : Prop))]
    rw [hpat]
    cases emap with
    | none =>
      have hsub : sub = table := Option.some.inj hres
      simp [hsub]
    | some m =>
      have hm : lookupTable m sub = some table := hres
      simp [hm]
  rw [dmsaSqlLoop_mem_iff]
  constructor
  · intro hex
    obtain ⟨s, _, _, hkk⟩ := hex
    rw [hstep] at hkk
    cases hi : includeTables with
    | some p => rw [hi] at hkk; exact hkk
    | none =>
      rw [hi] at hkk
      cases he : excludeTables with
      | some q => rw [he] at hkk; simpa using hkk
      | none => rw [he] at hkk; simp at hkk
  · intro hcond
    refine ⟨stmt, hin, rfl, ?_⟩
    rw [hstep]
    cases hi : includeTables with
    | some p => rw [hi] at hcond; exact hcond
    | none =>
      rw [hi] at hcond
      cases he : excludeTables with
      | some q => rw [he] at hcond; simpa using hcond
      | none => rw [he] at hcond; exact absurd hcond id

/-- Witness for C1 as amended: with a configured include pattern matching
`"foo"`, the concrete resolved statement is kept iff the include pattern
matches its table name. -/
theorem C1_filter_decision_witness :
    goTrim "CREATE TABLE foo (x int)" ∈
        (dmsaSqlLoop (some (fun tbl => tbl == "foo")) none c1Pattern none
          (rawDmsaSql "CREATE TABLE foo (x int)") none).1 ↔
      (("foo" : String) == "foo") = true :=
  C1_filter_decision (some (fun tbl => tbl == "foo")) none c1Pattern none
    "CREATE TABLE foo (x int)" "CREATE TABLE foo (x int)" "foo" "foo"
    (by decide) (by decide) (by decide) rfl

/-! ### C5: lifecycle statements are always retained -/

/-- C5: any fetched statement containing the `version_history` marker is
included (trimmed) in the output of `dmsaSql`, whatever include or exclude
patterns are configured and whether or not any table pattern matches it;
in the mapped case this is under the proviso that building the
entity-to-table map succeeded (otherwise the operation aborts with an error
and has no output). -/
theorem C5_lifecycle_kept (includeTables excludeTables : Option (String → Bool))
    (patterns : PatternsType) (targetBody createBody : String) (stmt : String)
    (hin : stmt ∈ rawDmsaSql targetBody)
    (hlc : strContains (goTrim stmt) "version_history" = true)
    (hmap : ∀ tc ec ed, patterns = .mapped tc ec ed →
      ∃ m, dmsaSqlMap tc ec createBody = .ok m) :
    goTrim stmt ∈
      (dmsaSql includeTables excludeTables patterns targetBody createBody).1 := by
  cases patterns with
  | normal tablePattern =>
    show goTrim stmt ∈
      (dmsaSqlLoop includeTables excludeTables tablePattern none
        (rawDmsaSql targetBody) none).1
    rw [dmsaSqlLoop_mem_iff]
    refine ⟨stmt, hin, rfl, ?_⟩
    rw [dmsaSqlStepCore, hlc]
    simp
  | mapped tc ec ed =>
    obtain ⟨m, hm⟩ := hmap tc ec ed rfl
    have hde : dmsaSql includeTables excludeTables (.mapped tc ec ed) targetBody createBody =
        dmsaSqlLoop includeTables excludeTables ed (some m) (rawDmsaSql targetBody) none := by
      show (match dmsaSqlMap tc ec createBody with
        | .error e => (([] : List String), some e)
        | .ok m2 => dmsaSqlLoop includeTables excludeTables ed (some m2)
            (rawDmsaSql targetBody) none) =
        dmsaSqlLoop includeTables excludeTables ed (some m) (rawDmsaSql targetBody) none
      rw [hm]
    rw [hde]
    show goTrim stmt ∈
      (dmsaSqlLoop includeTables excludeTables ed (some m)
        (rawDmsaSql targetBody) none).1
    rw [dmsaSqlLoop_mem_iff]
    refine ⟨stmt, hin, rfl, ?_⟩
    rw [dmsaSqlStepCore, hlc]
    simp

/-- Witness for C5: a concrete lifecycle statement survives an exclude
pattern that matches every table name. -/
theorem C5_lifecycle_kept_witness :
    goTrim " INSERT INTO version_history VALUES (1)" ∈
      (dmsaSql none (some (fun _ => true)) (.normal c1Pattern)
        "CREATE TABLE foo (x int); INSERT INTO version_history VALUES (1)" "").1 :=
  C5_lifecycle_kept none (some (fun _ => true)) (.normal c1Pattern)
    "CREATE TABLE foo (x int); INSERT INTO version_history VALUES (1)" ""
    " INSERT INTO version_history VALUES (1)"
    (by decide) (by decide)
    (fun tc ec ed h => PatternsType.noConfusion h)

/-! ### C2: transactional, in-order, fail-fast DDL execution -/

theorem operateLoop_ok {σ : Type} (engine : σ → String → Except String σ)
    (stmts : List String) :
    ∀ st sN, runStmts engine st stmts = .ok sN →
      operateLoop engine st stmts = (sN, stmts.map goTrim, none) := by
  induction stmts with
  | nil =>
    intro st sN h
    rw [runStmts] at h
    cases h
    rfl
  | cons s rest ih =>
    intro st sN h
    rw [runStmts] at h
    cases he : engine st (goTrim s) with
    | error e => rw [he] at h; cases h
    | ok st2 =>
      rw [he] at h
      have hrec := ih st2 sN h
      rw [operateLoop, executeSQLTx]
      rw [he]
      simp only [hrec, List.map_cons]
      rfl

theorem operateLoop_fail {σ : Type} (engine : σ → String → Except String σ)
    (stmts : List String) :
    ∀ st k (hk : k < stmts.length) sk e,
      runStmts engine st (stmts.take k) = .ok sk →
      engine sk (goTrim (stmts.get ⟨k, hk⟩)) = .error e →
      ∃ st2, operateLoop engine st stmts =
        (st2, (stmts.take (k+1)).map goTrim,
          some ("Error executing SQL: `" ++ stmts.get ⟨k, hk⟩ ++ "`: " ++
            ("Error executing SQL: " ++ goTrim (stmts.get ⟨k, hk⟩) ++ ": " ++ e))) := by
  induction stmts with
  | nil =>
    intro st k hk
    exact absurd hk (by simp)
  | cons s rest ih =>
    intro st k hk sk e hpre hfail
    cases k with
    | zero =>
      rw [List.take_zero, runStmts] at hpre
      have hsk : st = sk := by cases hpre; rfl
      subst hsk
      refine ⟨st, ?_⟩
      rw [operateLoop, executeSQLTx]
      have hf : engine st (goTrim s) = .error e := hfail
      rw [hf]
      rfl
    | succ k =>
      have htake : (s :: rest).take (k+1) = s :: rest.take k := rfl
      rw [htake, runStmts] at hpre
      cases he : engine st (goTrim s) with
      | error e2 => rw [he] at hpre; cases hpre
      | ok st2 =>
        rw [he] at hpre
        have hk2 : k < rest.length := Nat.lt_of_succ_lt_succ hk
        have hget : (s :: rest).get ⟨k+1, hk⟩ = rest.get ⟨k, hk2⟩ := rfl
        rw [hget] at hfail
        obtain ⟨st3, hrec⟩ := ih st2 k hk2 sk e hpre hfail
        refine ⟨st3, ?_⟩
        rw [operateLoop, executeSQLTx]
        rw [he]
        simp only [hrec, hget]
        rfl

/-- C2: within a transaction (no schema directive configured), the DDL
statements run strictly in order; if the first failure is at index `k` the
committed state is the initial state `s0` (full rollback), exactly the
statements up to and including index `k` were executed, and the returned
error message contains the text of the `k`-th statement; if every statement
succeeds the transaction commits the final state. -/
theorem C2_transact (σ : Type) (engine : σ → String → Except String σ)
    (s0 : σ) (stmts : List String) :
    (∀ k (hk : k < stmts.length) (sk : σ) (e : String),
      runStmts engine s0 (stmts.take k) = .ok sk →
      engine sk (goTrim (stmts.get ⟨k, hk⟩)) = .error e →
      ∃ msg, transact engine "postgres" "" s0 stmts =
          (s0, (stmts.take (k+1)).map goTrim, some msg) ∧
        strContains msg (stmts.get ⟨k, hk⟩) = true) ∧
    (∀ sN, runStmts engine s0 stmts = .ok sN →
      transact engine "postgres" "" s0 stmts = (sN, stmts.map goTrim, none)) := by
  have hexec : operateOnTablesExec engine "postgres" "" s0 stmts =
      operateLoop engine s0 stmts := by
    rw [operateOnTablesExec]
    rw [if_neg (by simp)]
  constructor
  · intro k hk sk e hpre hfail
    obtain ⟨st2, hloop⟩ := operateLoop_fail engine stmts s0 k hk sk e hpre hfail
    refine ⟨"Error executing SQL: `" ++ stmts.get ⟨k, hk⟩ ++ "`: " ++
        ("Error executing SQL: " ++ goTrim (stmts.get ⟨k, hk⟩) ++ ": " ++ e), ?_, ?_⟩
    · rw [transact]
      simp only [hexec, hloop]
    · apply strContains_of_parts _ "Error executing SQL: `" _
        ("`: " ++ ("Error executing SQL: " ++ goTrim (stmts.get ⟨k, hk⟩) ++ ": " ++ e))
      simp [List.append_assoc]
  · intro sN h
    have hloop := operateLoop_ok engine stmts s0 sN h
    rw [transact]
    simp only [hexec, hloop]

/-- Witness for C2: against the concrete engine that fails on `"BOOM"`,
running `["A", "BOOM", "C"]` from the empty trace state rolls back to the
empty state, executes only the first two statements, and reports an error
containing `"BOOM"`. -/
theorem C2_transact_witness :
    ∃ msg, transact c2Engine "postgres" "" ([] : List String) ["A", "BOOM", "C"] =
        ([], ["A", "BOOM"], some msg) ∧
      strContains msg "BOOM" = true :=
  (C2_transact (List String) c2Engine [] ["A", "BOOM", "C"]).1 1 (by decide)
    ["A"] "db says no" rfl rfl

/-! ### C3: exact row-count verification of a load -/

/-- C3: when the copy subprocess and both counts succeed, the task succeeds
iff the destination row count equals the number of physical lines in the
source file minus the header line, exactly; on a mismatch the task fails
with a message naming both numbers. -/
theorem C3_row_count (env : LoadEnv) (a : CopyArgs)
    (cols : List String) (connStr ps : String) (chunks : List (List Nat))
    (actualRows : Int)
    (hh : env.header = .ok cols) (hp : env.psqlOnPath = true)
    (hu : env.parseUrl = .ok connStr) (hs : env.primarySchema = .ok ps)
    (hc : env.copyRun = .ok ()) (ht : env.tableRows = .ok actualRows)
    (hf : env.fileChunks = .ok chunks) :
    ((copyCommand env a).2 = .ok () ↔
      actualRows = ((lineCounter chunks).2 : Int) - 1) ∧
    (actualRows ≠ ((lineCounter chunks).2 : Int) - 1 →
      ∃ msg, (copyCommand env a).2 = .error msg ∧
        strContains msg (toString actualRows) = true ∧
        strContains msg (toString (((lineCounter chunks).2 : Int) - 1)) = true) := by
  rw [copyCommand]
  rw [hh, hu, hs, hc, ht, hf, hp]
  simp only [Bool.true_eq_false, if_neg (by simp : ¬(False : Prop))]
  by_cases hne : actualRows ≠ ((lineCounter chunks).2 : Int) - 1
  · rw [if_pos hne]
    constructor
    · simp only []
      constructor
      · intro hcontra
        exact absurd hcontra (by simp)
      · intro heq
        exact absurd heq hne
    · intro _
      refine ⟨_, rfl, ?_, ?_⟩
      · apply strContains_of_parts _
          ("Number of rows in " ++ ps ++ "." ++ a.table ++ " (") _
          (") does not equal the number of lines (" ++
            toString (((lineCounter chunks).2 : Int) - 1) ++ ") in the input file")
        simp [List.append_assoc]
      · apply strContains_of_parts _
          ("Number of rows in " ++ ps ++ "." ++ a.table ++ " (" ++
            toString actualRows ++ ") does not equal the number of lines (") _
          (") in the input file")
        simp [List.append_assoc]
  · rw [if_neg hne]
    have heq : actualRows = ((lineCounter chunks).2 : Int) - 1 := by
      by_contra hcon
      exact hne hcon
    exact ⟨⟨fun _ => heq, fun _ => rfl⟩, fun hcontra => absurd heq hcontra⟩

/-- Witness for C3: the concrete mismatching load (5 destination rows against
a file of four physical lines, so 3 expected data rows) fails with a message
naming 5 and 3. -/
theorem C3_row_count_witness :
    ∃ msg, (copyCommand c3Env c3Args).2 = .error msg ∧
      strContains msg (toString (5 : Int)) = true ∧
      strContains msg (toString ((4 : Int) - 1)) = true :=
  (C3_row_count c3Env c3Args ["a", "b"] "conn" "sch"
    [[104, 10, 120, 10, 121, 10, 122, 10]] 5
    rfl rfl rfl rfl rfl rfl rfl).2 (by decide)

/-! ### C6: missing psql is a per-task failure, not a pre-flight check -/

/-- With `psql` unresolvable and a readable header, one task logs, reads the
CSV header, then hits the psql check and fails with the psql message. -/
theorem copyCommand_no_psql (env : LoadEnv) (a : CopyArgs) (cols : List String)
    (hp : env.psqlOnPath = false) (hh : env.header = .ok cols) :
    copyCommand env a =
      ([.logInfo ("Loading " ++ a.table ++ " (search_path: " ++ a.searchPath ++ ")"),
        .readHeader a.csvFile, .lookPathPsql],
       .error "`psql` binary must be in PATH") := by
  rw [copyCommand, hh, hp]
  rfl

/-- Every task in a run is attempted: each task's header-read event appears
in the run's trace. -/
theorem loadTasks_readHeader (tasks : List (LoadEnv × CopyArgs)) :
    ∀ t ∈ tasks, (∀ u ∈ tasks, u.1.psqlOnPath = false ∧ ∃ c, u.1.header = .ok c) →
      LoadEvent.readHeader t.2.csvFile ∈ (loadTasks tasks).1 := by
  induction tasks with
  | nil => intro t ht; cases ht
  | cons u rest ih =>
    intro t ht hall
    obtain ⟨hpu, cu, hhu⟩ := hall u (List.mem_cons_self u rest)
    have hcc := copyCommand_no_psql u.1 u.2 cu hpu hhu
    cases List.mem_cons.mp ht with
    | inl he =>
      subst he
      show LoadEvent.readHeader t.2.csvFile ∈ ((copyCommand t.1 t.2).1 ++ (loadTasks rest).1)
      apply List.mem_append_of_mem_left
      rw [hcc]
      simp
    | inr hr =>
      show LoadEvent.readHeader t.2.csvFile ∈ ((copyCommand u.1 u.2).1 ++ (loadTasks rest).1)
      apply List.mem_append_of_mem_right
      exact ih t hr (fun v hv => hall v (List.mem_cons_of_mem u hv))

/-- When every task sees no `psql` and a readable header, the collected error
list is one psql message per task. -/
theorem loadTasks_errors_no_psql (tasks : List (LoadEnv × CopyArgs)) :
    (∀ u ∈ tasks, u.1.psqlOnPath = false ∧ ∃ c, u.1.header = .ok c) →
      (loadTasks tasks).2 = tasks.map (fun _ => "`psql` binary must be in PATH") := by
  induction tasks with
  | nil => intro _; rfl
  | cons u rest ih =>
    intro hall
    obtain ⟨hpu, cu, hhu⟩ := hall u (List.mem_cons_self u rest)
    have hcc := copyCommand_no_psql u.1 u.2 cu hpu hhu
    show ((match (copyCommand u.1 u.2).2 with
        | .error e => [e] | .ok _ => []) ++ (loadTasks rest).2) = _
    rw [hcc]
    rw [ih (fun v hv => hall v (List.mem_cons_of_mem u hv))]
    rfl

/-- C6 as amended: the `psql` resolvability check happens inside each task,
after that task's CSV header has already been read; a missing `psql` fails
each task individually with the message "`psql` binary must be in PATH",
every task is still attempted (each task's per-table header read occurs),
and the run ends with an aggregated error containing that message — it does
not abort before per-table work as a single pre-flight check would. -/
theorem C6_psql_per_task (env : LoadEnv) (a : CopyArgs) (cols : List String)
    (hp : env.psqlOnPath = false) (hh : env.header = .ok cols) :
    copyCommand env a =
      ([.logInfo ("Loading " ++ a.table ++ " (search_path: " ++ a.searchPath ++ ")"),
        .readHeader a.csvFile, .lookPathPsql],
       .error "`psql` binary must be in PATH") ∧
    ∀ tasks : List (LoadEnv × CopyArgs),
      (env, a) ∈ tasks →
      (∀ u ∈ tasks, u.1.psqlOnPath = false ∧ ∃ c, u.1.header = .ok c) →
      (∀ t ∈ tasks, LoadEvent.readHeader t.2.csvFile ∈ (load tasks).1) ∧
      ∃ msg, (load tasks).2 = .error msg ∧
        strContains msg "`psql` binary must be in PATH" = true := by
  refine ⟨copyCommand_no_psql env a cols hp hh, ?_⟩
  intro tasks hmem hall
  constructor
  · intro t ht
    exact loadTasks_readHeader tasks t ht hall
  · have herrs := loadTasks_errors_no_psql tasks hall
    cases tasks with
    | nil => cases hmem
    | cons u rest =>
      have hmaster : combineErrors ((loadTasks (u :: rest)).2) =
          "`psql` binary must be in PATH" ++ "\n" ++
            combineErrors (rest.map (fun _ => "`psql` binary must be in PATH")) := by
        rw [herrs]
        rfl
      have hne : ("`psql` binary must be in PATH" ++ "\n" ++
          combineErrors (rest.map (fun _ => "`psql` binary must be in PATH"))) ≠ "" := by
        apply str_ne_of_head_ne
        show some (Char.ofNat 96) ≠ none
        decide
      refine ⟨"`psql` binary must be in PATH" ++ "\n" ++
          combineErrors (rest.map (fun _ => "`psql` binary must be in PATH")) ++ "\n",
        ?_, ?_⟩
      · show (let r := loadTasks (u :: rest)
          let masterError := combineErrors r.2
          let masterError := if masterError ≠ "" then masterError ++ "\n" else masterError
          if masterError ≠ "" then Except.error masterError else Except.ok ()) = _
        simp only [hmaster]
        rw [if_pos hne]
        rw [if_pos (by
          apply str_ne_of_head_ne
          show some (Char.ofNat 96) ≠ none
          decide)]
      · apply strContains_of_parts _ "" _
          ("\n" ++ combineErrors (rest.map (fun _ => "`psql` binary must be in PATH")) ++ "\n")
        simp [List.append_assoc]

/-- Counterexample to C6: a two-task run with `psql` missing still performs
per-table work for both tables (both header reads appear in the trace), the
check fires once per task, and the run returns a per-task aggregated error
rather than failing fatally before any per-table work. -/
theorem C6_counterexample :
    (load [(c6Env, c6Args1), (c6Env, c6Args2)]).2 =
      .error "`psql` binary must be in PATH\n`psql` binary must be in PATH\n\n" ∧
    LoadEvent.readHeader "f1" ∈ (load [(c6Env, c6Args1), (c6Env, c6Args2)]).1 ∧
    LoadEvent.readHeader "f2" ∈ (load [(c6Env, c6Args1), (c6Env, c6Args2)]).1 ∧
    (load [(c6Env, c6Args1), (c6Env, c6Args2)]).1.countP
      (fun ev => decide (ev = LoadEvent.lookPathPsql)) = 2 := by
  refine ⟨rfl, by decide, by decide, by decide⟩

/-- Witness for C6 as amended: the concrete missing-psql environment fails
its task right after the header read. -/
theorem C6_psql_per_task_witness :
    copyCommand c6Env c6Args1 =
      ([.logInfo "Loading t1 (search_path: sp)", .readHeader "f1", .lookPathPsql],
       .error "`psql` binary must be in PATH") :=
  (C6_psql_per_task c6Env c6Args1 ["a"] rfl rfl).1

/-! ### C7: post-load maintenance is run, its failure silently ignored -/

/-- C7 as amended: after a verified load, the `VACUUM FREEZE ANALYZE`
maintenance statement is issued for the table, and the maintenance outcome
is ignored entirely: the task returns success and its observable behavior
(trace and result) is identical whether maintenance succeeds or fails — in
particular the failure is never propagated and never logged. -/
theorem C7_maintenance_ignored (env : LoadEnv) (a : CopyArgs)
    (cols : List String) (connStr ps : String) (chunks : List (List Nat))
    (actualRows : Int)
    (hh : env.header = .ok cols) (hp : env.psqlOnPath = true)
    (hu : env.parseUrl = .ok connStr) (hs : env.primarySchema = .ok ps)
    (hc : env.copyRun = .ok ()) (ht : env.tableRows = .ok actualRows)
    (hf : env.fileChunks = .ok chunks)
    (heq : actualRows = ((lineCounter chunks).2 : Int) - 1) :
    (copyCommand env a).2 = .ok () ∧
    LoadEvent.execSql (analyzeSqlFor ps a.table) ∈ (copyCommand env a).1 ∧
    copyCommand env a = copyCommand { env with analyzeRun := .ok () } a := by
  have hne : ¬(actualRows ≠ ((lineCounter chunks).2 : Int) - 1) := fun hc2 => hc2 heq
  refine ⟨?_, ?_, ?_⟩
  · rw [copyCommand, hh, hu, hs, hc, ht, hf, hp]
    simp only [Bool.true_eq_false, if_neg (by simp : ¬(False : Prop))]
    rw [if_neg hne]
  · rw [copyCommand, hh, hu, hs, hc, ht, hf, hp]
    simp only [Bool.true_eq_false, if_neg (by simp : ¬(False : Prop))]
    rw [if_neg hne]
    simp [analyze]
  · rw [copyCommand, copyCommand, hh, hu, hs, hc, ht, hf, hp]
    simp only [Bool.true_eq_false, if_neg (by simp : ¬(False : Prop))]
    rw [if_neg hne, if_neg hne]
    simp [analyze]

/-- Witness for C7 as amended: the concrete verified load with a failing
maintenance step still returns success, issues the vacuum, and behaves
exactly as if maintenance had succeeded. -/
theorem C7_maintenance_ignored_witness :
    (copyCommand c7Env c7Args).2 = .ok () ∧
    LoadEvent.execSql (analyzeSqlFor "sch" "t") ∈ (copyCommand c7Env c7Args).1 ∧
    copyCommand c7Env c7Args = copyCommand { c7Env with analyzeRun := .ok () } c7Args :=
  C7_maintenance_ignored c7Env c7Args ["a", "b"] "conn" "sch"
    [[104, 10, 120, 10, 121, 10]] 2 rfl rfl rfl rfl rfl rfl rfl (by decide)

/-- Counterexample to C7: in the concrete environment whose maintenance step
fails with `"analyze boom"`, the task still succeeds, the maintenance was
attempted, and *no* log line mentions the maintenance failure — refuting
the claim that a maintenance failure is logged. -/
theorem C7_counterexample :
    (copyCommand c7Env c7Args).2 = .ok () ∧
    c7Env.analyzeRun = .error "analyze boom" ∧
    LoadEvent.execSql "VACUUM FREEZE ANALYZE sch.t" ∈ (copyCommand c7Env c7Args).1 ∧
    noLogMention (copyCommand c7Env c7Args).1 "analyze boom" = true := by
  refine ⟨rfl, rfl, by decide, by decide⟩

/-! ### C9: the version_history VARCHAR kludge in rawDmsaSql -/

/-- Lemma: `replaceFirstAux` either leaves a string without an occurrence of `old`
unchanged, or rewrites exactly the first (leftmost) occurrence of `old` to
`new`. -/
theorem replaceFirstAux_spec (old new : List Char) (hold : old ≠ []) :
    ∀ s : List Char,
      (hasInfixB old s = false ∧ replaceFirstAux old new s = s) ∨
      (∃ p q, s = p ++ old ++ q ∧ replaceFirstAux old new s = p ++ new ++ q ∧
        ∀ p2 q2, s = p2 ++ old ++ q2 → p.length ≤ p2.length) := by
  intro s
  induction s with
  | nil =>
    left
    constructor
    · cases old with
      | nil => exact absurd rfl hold
      | cons c t => rfl
    · rfl
  | cons c rest ih =>
    by_cases hpre : old.isPrefixOf (c :: rest) = true
    · right
      have hp : old <+: c :: rest := List.isPrefixOf_iff_prefix.mp hpre
      obtain ⟨q, hq⟩ := hp
      refine ⟨[], q, by simpa using hq.symm, ?_, fun p2 q2 _ => Nat.zero_le _⟩
      simp only [replaceFirstAux]
      rw [if_pos hpre]
      rw [← hq, List.drop_left]
      simp
    · cases ih with
      | inl hno =>
        left
        constructor
        · simp [hasInfixB, hno.1, hpre]
        · simp only [replaceFirstAux]
          rw [if_neg hpre, hno.2]
      | inr hocc =>
        obtain ⟨p, q, hs, hr, hmin⟩ := hocc
        right
        refine ⟨c :: p, q, by simp [hs], ?_, ?_⟩
        · simp only [replaceFirstAux]
          rw [if_neg hpre, hr]
          simp
        · intro p2 q2 h2
          cases p2 with
          | nil =>
            exfalso
            apply hpre
            rw [List.isPrefixOf_iff_prefix]
            exact ⟨q2, by simpa using h2.symm⟩
          | cons d p2t =>
            have hd : rest = p2t ++ old ++ q2 := by
              have h3 := h2
              simp only [List.cons_append, List.cons.injEq] at h3
              exact h3.2
            have := hmin p2t q2 hd
            simp only [List.length_cons]
            omega

theorem rawDmsaSqlLoop_length (l : List String) :
    (rawDmsaSqlLoop l).length = l.length := by
  induction l with
  | nil => rfl
  | cons s rest ih => simp only [rawDmsaSqlLoop, List.length_cons, ih]

theorem rawDmsaSqlLoop_getD (l : List String) :
    ∀ i, i < l.length →
      (rawDmsaSqlLoop l).getD i "" =
        (let stmt := l.getD i ""
         if strContains stmt "version_history" && strContains stmt "CREATE TABLE" then
           replaceFirst stmt "dms_version VARCHAR(16)" "dms_version VARCHAR(50)"
         else stmt) := by
  induction l with
  | nil => intro i h; cases h
  | cons s rest ih =>
    intro i h
    cases i with
    | zero =>
      simp only [rawDmsaSqlLoop, List.getD_cons_zero]
      by_cases h1 : strContains s "version_history" = true
      · by_cases h2 : strContains s "CREATE TABLE" = true
        · simp [h1, h2]
        · simp [h1, h2]
      · simp [h1]
    | succ i =>
      have h2 : i < rest.length := Nat.lt_of_succ_lt_succ h
      simp only [rawDmsaSqlLoop, List.getD_cons_succ]
      exact ih i h2

/-- C9: the fetched statement list has exactly one entry per `";"`-separated
piece of the response body; a piece containing both `"version_history"` and
`"CREATE TABLE"` has the first occurrence of `"dms_version VARCHAR(16)"`
rewritten to `"dms_version VARCHAR(50)"`; every other piece is returned
verbatim.  The last two clauses characterize the rewrite itself: it is the
identity when the pattern does not occur, and otherwise rewrites exactly
the leftmost occurrence. -/
theorem C9_rawDmsaSql (body : String) :
    (rawDmsaSql body).length = (goSplit body ';').length ∧
    (∀ i, i < (goSplit body ';').length →
      (rawDmsaSql body).getD i "" =
        (let stmt := (goSplit body ';').getD i ""
         if strContains stmt "version_history" && strContains stmt "CREATE TABLE" then
           replaceFirst stmt "dms_version VARCHAR(16)" "dms_version VARCHAR(50)"
         else stmt)) ∧
    (∀ stmt : String, strContains stmt "dms_version VARCHAR(16)" = false →
      replaceFirst stmt "dms_version VARCHAR(16)" "dms_version VARCHAR(50)" = stmt) ∧
    (∀ stmt : String, strContains stmt "dms_version VARCHAR(16)" = true →
      ∃ p q : List Char,
        stmt.data = p ++ ("dms_version VARCHAR(16)").data ++ q ∧
        (replaceFirst stmt "dms_version VARCHAR(16)" "dms_version VARCHAR(50)").data =
          p ++ ("dms_version VARCHAR(50)").data ++ q ∧
        ∀ p2 q2 : List Char,
          stmt.data = p2 ++ ("dms_version VARCHAR(16)").data ++ q2 →
          p.length ≤ p2.length) := by
  have hold : ("dms_version VARCHAR(16)").data ≠ [] := by decide
  refine ⟨rawDmsaSqlLoop_length _, rawDmsaSqlLoop_getD _, ?_, ?_⟩
  · intro stmt hno
    cases replaceFirstAux_spec ("dms_version VARCHAR(16)").data
        ("dms_version VARCHAR(50)").data hold stmt.data with
    | inl h =>
      rw [replaceFirst]
      rw [h.2]
    | inr h =>
      obtain ⟨p, q, hocc, _, _⟩ := h
      exfalso
      have : strContains stmt "dms_version VARCHAR(16)" = true := by
        rw [strContains, hasInfixB_iff]
        exact ⟨p, q, hocc.symm⟩
      rw [this] at hno
      cases hno
  · intro stmt hyes
    cases replaceFirstAux_spec ("dms_version VARCHAR(16)").data
        ("dms_version VARCHAR(50)").data hold stmt.data with
    | inl h =>
      exfalso
      rw [strContains, h.1] at hyes
      cases hyes
    | inr h =>
      obtain ⟨p, q, hocc, hrw, hmin⟩ := h
      exact ⟨p, q, hocc, hrw, hmin⟩

/-- Witness for C9: the first piece of a concrete two-statement body carries
both markers and comes back with its VARCHAR width rewritten. -/
theorem C9_rawDmsaSql_witness :
    (rawDmsaSql
        "CREATE TABLE version_history (dms_version VARCHAR(16));DROP TABLE x").getD 0 "" =
      "CREATE TABLE version_history (dms_version VARCHAR(50))" := by
  have h := (C9_rawDmsaSql
    "CREATE TABLE version_history (dms_version VARCHAR(16));DROP TABLE x").2.1 0 (by decide)
  exact h.trans (by decide)

end InfomodelsDatabase
